import Mathlib

/-!
Shallow embedding of the `static-once` crate (src/src/lib.rs).

The crate provides `StaticCell<T>` (an `UnsafeCell<MaybeUninit<T>>` holding a
possibly-uninitialized static value), the `StaticInit` trait (binding a guarded
type to its `HOLDER` static cell and offering the provided unsafe method
`init`), and `Inited<B>` (a zero-sized, `Copy`/`Clone` proof token whose `get`
dereferences `B::HOLDER`).

Modelling decisions:
* A `MaybeUninit<T>` slot is modelled as `Option T`: `none` is the
  uninitialized state, `some v` a written value.
* `assume_init_ref` on an uninitialized slot is undefined behavior in Rust;
  the model makes `StaticCell.get` return `Option T`, where `none` marks that
  undefined-behavior branch (it is not a Rust-level `Option` return type).
* `HOLDER: &'static StaticCell<Item>` is a reference to a static cell; cell
  addresses are modelled as `Nat`, and a `World` maps each address to the
  current contents of the cell living there.
* A Rust `&'static T` returned by a read is modelled as the pair of the
  address of the cell it points into and the pointee value.
-/

/-- `StaticCell<T>`, i.e. `value: UnsafeCell<MaybeUninit<T>>`.
`none` models `MaybeUninit::uninit()`, `some v` a written value. -/
structure StaticCell (T : Type) where
  value : Option T
deriving DecidableEq, Repr

/-- `StaticCell::new`: `UnsafeCell::new(MaybeUninit::uninit())`. -/
def StaticCell.new {T : Type} : StaticCell T :=
  ⟨none⟩

/-- `StaticCell::set`: `(*self.value.get()).write(value)`.
`MaybeUninit::write` stores unconditionally — there is no once-only check and
no inspection of the previous contents. -/
def StaticCell.set {T : Type} (_self : StaticCell T) (v : T) : StaticCell T :=
  ⟨some v⟩

/-- `StaticCell::get`: `(*self.value.get()).assume_init_ref()`.
A `none` result is the undefined-behavior branch of `assume_init_ref`,
reached only when the cell was never written. -/
def StaticCell.get {T : Type} (self : StaticCell T) : Option T :=
  self.value

/-- The statics of a program that hold cells of item type `T`: a map from the
address of each `&'static StaticCell<T>` to the cell contents at that
address. -/
def World (T : Type) :=
  Nat → StaticCell T

/-- Mutation of the static cell at address `id` through `StaticCell::set`
(interior mutability: the cell at `id` is overwritten in place, all other
statics are untouched). -/
def World.setAt {T : Type} (w : World T) (id : Nat) (v : T) : World T :=
  fun i => if i = id then (w i).set v else w i

/-- Reading the static cell at address `id` through `StaticCell::get`. -/
def World.getAt {T : Type} (w : World T) (id : Nat) : Option T :=
  (w id).get

/-- The `StaticInit` trait for a guarded type `B`: `type Item` is the `Item`
type parameter and `holderId` is the address denoted by the associated
constant `HOLDER: &'static StaticCell<Self::Item>`. -/
structure StaticInit (B : Type) (Item : Type) where
  holderId : Nat

/-- `Inited<B>`: only a `_marker: PhantomData<B>` field, so the token is
zero-sized; it derives `Copy` and `Clone`. -/
structure Inited (B : Type) where
  mk ::

/-- The derived `Clone` (and `Copy`) of `Inited<B>`: copying a
`PhantomData`-only struct yields the identical value. -/
def Inited.clone {B : Type} (p : Inited B) : Inited B :=
  p

/-- `StaticInit::init(value)`: `Self::HOLDER.set(value)` followed by
`Inited { _marker: PhantomData }`; returns the minted proof together with the
updated world of statics. -/
def StaticInit.init {B Item : Type} (inst : StaticInit B Item) (v : Item)
    (w : World Item) : Inited B × World Item :=
  (Inited.mk, w.setAt inst.holderId v)

/-- `Inited::get`: `unsafe { B::HOLDER.get() }`. The returned `&'static
B::Item` is modelled as the address of the holder cell paired with the
pointee; the proof value itself is never consulted. `none` is the
undefined-behavior branch inherited from `StaticCell::get` on an unwritten
cell. -/
def Inited.get {B Item : Type} (inst : StaticInit B Item) (_p : Inited B)
    (w : World Item) : Option (Nat × Item) :=
  (w.getAt inst.holderId).map fun x => (inst.holderId, x)

/-- The runtime operations the crate exposes on the statics of a program,
for a fixed guarded type `B` with item type `Item`. -/
inductive Op (B : Type) (Item : Type) where
  | setOp (id : Nat) (v : Item)
  | getOp (id : Nat)
  | initCall (v : Item)
  | proofGet (p : Inited B)

/-- Effect of one operation on the world of statics: `set` and `init` write
through the cell's interior mutability; the two read operations
(`StaticCell::get`, `Inited::get`) only dereference and leave every cell
unchanged. -/
def Op.apply {B Item : Type} (inst : StaticInit B Item) :
    Op B Item → World Item → World Item
  | .setOp id v, w => w.setAt id v
  | .getOp _, w => w
  | .initCall v, w => (inst.init v w).2
  | .proofGet _, w => w

/-- Running a sequence of operations left to right. -/
def runOps {B Item : Type} (inst : StaticInit B Item) :
    List (Op B Item) → World Item → World Item
  | [], w => w
  | o :: os, w => runOps inst os (Op.apply inst o w)

/-!
Syntactic model of the crate's public API surface, transcribed from the
signatures in src/src/lib.rs. Used for the claims about the error model and
about which accessors exist.
-/

/-- Return types occurring in (or absent from) the crate's signatures.
`refItem` is `&'static T` / `&'static B::Item`; `mutRefItem` is `&mut T`
(present in the grammar so its absence from every signature is statable);
`resultOf` and `optionOf` are Rust's recoverable-error carriers. -/
inductive RustType where
  | staticCellSelf
  | unitTy
  | refItem
  | mutRefItem
  | initedSelf
  | resultOf (t e : RustType)
  | optionOf (t : RustType)
deriving DecidableEq, BEq, Repr

/-- Every public operation defined in src/src/lib.rs: `StaticCell::new`,
`StaticCell::set`, `StaticCell::get`, the derived `Default::default` for
`StaticCell`, the provided `StaticInit::init`, `Inited::get`, and the derived
`Clone::clone` for `Inited`. -/
inductive ApiOp where
  | cellNew
  | cellSet
  | cellGet
  | cellDefault
  | initFn
  | initedGet
  | initedClone
deriving DecidableEq, BEq, Repr

/-- The declared return type of each operation, read off the source:
`pub const fn new() -> Self`, `pub unsafe fn set(&'static self, value: T)`,
`pub unsafe fn get(&'static self) -> &'static T`, `fn default() -> Self`,
`unsafe fn init(value: Self::Item) -> Inited<Self>`,
`pub fn get(&self) -> &'static B::Item`, `fn clone(&self) -> Self`. -/
def returnType : ApiOp → RustType
  | .cellNew => .staticCellSelf
  | .cellSet => .unitTy
  | .cellGet => .refItem
  | .cellDefault => .staticCellSelf
  | .initFn => .initedSelf
  | .initedGet => .refItem
  | .initedClone => .initedSelf

/-- A return type carries a recoverable error exactly when it is a
`Result<_, _>` or an `Option<_>`. -/
def isErrorCarrying : RustType → Bool
  | .resultOf _ _ => true
  | .optionOf _ => true
  | _ => false

/-- The operations belonging to `StaticCell` itself, in source order:
`new`, `get`, `set` (plus the derived `default`). -/
def staticCellOps : List ApiOp :=
  [.cellNew, .cellGet, .cellSet, .cellDefault]

/-- The whole public API, in source order. -/
def apiOps : List ApiOp :=
  [.cellNew, .cellSet, .cellGet, .cellDefault, .initFn, .initedGet, .initedClone]

/-!
Compile-time model for the exactly-once claim. What Rust checks about this
crate at build time: each `impl StaticInit for T` block attaches the trait to
`T`, and coherence rejects a program attaching it twice to the same `T`. A
call site `T::init(...)` merely invokes the provided trait method inside an
`unsafe` block; it declares no impl, so it participates in no coherence
check — its once-only requirement is the documented safety contract
`/// # Safety: can be called only once` on `init`.
-/

/-- The part of a Rust program relevant to `StaticInit` coherence: the list of
guarded types (named by `Nat` identifiers) carrying an `impl StaticInit for T`
block, and the list of guarded types appearing at `T::init(...)` call sites,
each occurrence one syntactically distinct call site. -/
structure RustProgram where
  staticInitImpls : List Nat
  initCallSites : List Nat
deriving DecidableEq, Repr

/-- Rust's trait-coherence rule: at most one `impl StaticInit for T` block per
type `T` in the whole program. -/
def coherenceOk (p : RustProgram) : Prop :=
  p.staticInitImpls.Nodup

/-- Type-checking of call sites: `T::init(...)` resolves iff `T: StaticInit`
holds, i.e. an impl block for `T` exists somewhere; nothing constrains how
many call sites mention the same `T`. -/
def callSitesOk (p : RustProgram) : Prop :=
  ∀ t ∈ p.initCallSites, t ∈ p.staticInitImpls

/-- The program compiles iff coherence holds and every call site resolves. -/
def compiles (p : RustProgram) : Prop :=
  coherenceOk p ∧ callSitesOk p

instance (p : RustProgram) : Decidable (coherenceOk p) := by
  unfold coherenceOk; infer_instance

instance (p : RustProgram) : Decidable (callSitesOk p) := by
  unfold callSitesOk; infer_instance

instance (p : RustProgram) : Decidable (compiles p) := by
  unfold compiles; infer_instance

/-- Writing at one address leaves the occupancy of a cell intact: if a cell
reads as written before a `set` (at any address), it still reads as written
after it. -/
theorem World.getAt_setAt_isSome {T : Type} (w : World T) (id hid : Nat)
    (v : T) (h : (w.getAt hid).isSome) :
    ((w.setAt id v).getAt hid).isSome := by
  unfold World.getAt World.setAt StaticCell.get StaticCell.set at *
  by_cases hc : hid = id
  · simp [hc]
  · simp [hc, h]

/-!  Theorems settling the claims.  -/

/-- Claim C1: when `StaticInit::init` is the one initialization performed for
the guarded type `B`, storing `v` into `B::HOLDER`, then `get` called on any
copy `q` of the returned proof (all `Inited<B>` values are the same zero-sized
token) returns a reference into the holder cell whose pointee equals `v`. -/
theorem C1_init_then_get_pointee {B Item : Type} (inst : StaticInit B Item)
    (v : Item) (w : World Item) (q : Inited B) :
    Inited.get inst q (inst.init v w).2 = some (inst.holderId, v) ∧
    q = (inst.init v w).1 := by
  constructor
  · simp [Inited.get, StaticInit.init, World.getAt, World.setAt,
      StaticCell.get, StaticCell.set]
  · rfl

/-- Claim C2 counterexample: a program with a single `impl StaticInit for T`
block for type `0` and two syntactically distinct `T::init(...)` call sites
for that same type compiles — calling the provided unsafe trait method twice
attaches nothing and collides with nothing. -/
theorem C2_counterexample :
    (RustProgram.mk [0] [0, 0]).initCallSites = [0, 0] ∧
    compiles (RustProgram.mk [0] [0, 0]) := by
  exact ⟨rfl, by decide⟩

/-- Claim C2 amended: what collides at build time is the capability
attachment itself — a program containing two `impl StaticInit for T` blocks
for the same `T` violates trait coherence and fails to compile; duplicate
`init` call sites are not rejected, their once-only requirement being only
the documented safety contract of the unsafe method. -/
theorem C2_amended_duplicate_impl_rejected (p : RustProgram) (t : Nat)
    (h : 2 ≤ p.staticInitImpls.count t) : ¬ compiles p := by
  intro hc
  have h1 := List.nodup_iff_count_le_one.mp hc.1 t
  omega

/-- Witness for the amended C2 at a concrete program: two impl blocks for
type `0` and no call sites. -/
theorem C2_amended_witness :
    2 ≤ (RustProgram.mk [0, 0] []).staticInitImpls.count 0 ∧
    ¬ compiles (RustProgram.mk [0, 0] []) :=
  ⟨by decide, C2_amended_duplicate_impl_rejected (RustProgram.mk [0, 0] []) 0 (by decide)⟩

/-- Claim C3: `Inited<B>` derives `Copy` and `Clone`, cloning returns the
identical zero-sized token, and `get` on a proof and on its clone both
dereference `B::HOLDER`: once the holder cell is written, both calls return
references whose address component is the holder cell's address, hence
identical addresses. -/
theorem C3_clone_same_address {B Item : Type} (inst : StaticInit B Item)
    (p : Inited B) (w : World Item)
    (h : (w.getAt inst.holderId).isSome) :
    Inited.clone p = p ∧
    (Inited.get inst (Inited.clone p) w).map Prod.fst = some inst.holderId ∧
    (Inited.get inst p w).map Prod.fst = some inst.holderId := by
  obtain ⟨x, hx⟩ := Option.isSome_iff_exists.mp h
  refine ⟨rfl, ?_, ?_⟩ <;> simp [Inited.get, Inited.clone, hx]

/-- Witness for C3 at a concrete world whose cell at address `0` holds `5`. -/
theorem C3_clone_same_address_witness :
    (World.getAt (fun _ => StaticCell.mk (some 5) : World Nat) 0).isSome ∧
    Inited.clone (Inited.mk : Inited Unit) = Inited.mk := by
  have h := C3_clone_same_address (StaticInit.mk 0 : StaticInit Unit Nat)
    Inited.mk (fun _ => StaticCell.mk (some 5)) rfl
  exact ⟨rfl, h.1⟩

/-- Claim C4: `StaticInit::init(value)` writes `value` into the cell named by
`Self::HOLDER` — that cell afterwards holds `value`, every other static is
untouched — and returns a newly minted proof value `Inited<Self>`. -/
theorem C4_init_writes_and_mints {B Item : Type} (inst : StaticInit B Item)
    (v : Item) (w : World Item) :
    (inst.init v w).1 = Inited.mk ∧
    (inst.init v w).2 inst.holderId = StaticCell.mk (some v) ∧
    (∀ j, j ≠ inst.holderId → (inst.init v w).2 j = w j) := by
  refine ⟨rfl, ?_, ?_⟩
  · simp [StaticInit.init, World.setAt, StaticCell.set]
  · intro j hj
    simp [StaticInit.init, World.setAt, hj]

/-- Witness for C4 at a concrete instance, value and world. -/
theorem C4_init_writes_and_mints_witness :
    ((StaticInit.mk 0 : StaticInit Unit Nat).init 7 (fun _ => StaticCell.new)).2 0 =
      StaticCell.mk (some 7) ∧
    ((StaticInit.mk 0 : StaticInit Unit Nat).init 7 (fun _ => StaticCell.new)).2 1 =
      (fun _ => StaticCell.new : World Nat) 1 := by
  have h := C4_init_writes_and_mints (StaticInit.mk 0 : StaticInit Unit Nat) 7
    (fun _ => StaticCell.new)
  exact ⟨h.2.1, h.2.2 1 (by decide)⟩

/-- Claim C5: once `StaticCell::set(v)` has completed on a cell, reading that
cell with `StaticCell::get` returns the stored `v` — both at the level of a
single cell and through a world of statics — so the `assume_init_ref`
undefined-behavior branch (`none`) is unreachable under that precondition. -/
theorem C5_read_after_write {T : Type} (c : StaticCell T) (w : World T)
    (id : Nat) (v : T) :
    (c.set v).get = some v ∧
    (w.setAt id v).getAt id = some v ∧
    (w.setAt id v).getAt id ≠ none := by
  refine ⟨rfl, ?_, ?_⟩ <;>
    simp [World.getAt, World.setAt, StaticCell.get, StaticCell.set]

/-- Claim C6: no operation of the public API (`StaticCell::new`, `set`,
`get`, the derived `default`, `StaticInit::init`, `Inited::get`, the derived
`clone`) has a `Result`- or `Option`-typed return: every signature returns
its plain result, so misuse is a contract violation rather than a reported
error. -/
theorem C6_no_recoverable_errors :
    ∀ op : ApiOp, isErrorCarrying (returnType op) = false := by
  intro op
  cases op <;> rfl

/-- Claim C7 counterexample: no operation of the crate's public API — in
particular none of `StaticCell`'s operations `new`, `get`, `set`, `default` —
returns a `&mut T`; the claimed mutable accessor `read_mut` does not exist in
the code. -/
theorem C7_counterexample :
    (apiOps.all fun op => !(returnType op == RustType.mutRefItem)) = true ∧
    (staticCellOps.all fun op => !(returnType op == RustType.mutRefItem)) = true := by
  exact ⟨by decide, by decide⟩

/-- Claim C7 amended: the code has no mutable accessor and no mutable cell
variant; `StaticCell`'s complete operation set is `new`, `get`, `set` (plus
the derived `default`), only the shared accessor `get -> &'static T` exists,
and the only write path is the unsafe `set`, whose safety contract makes the
caller guarantee exclusivity. -/
theorem C7_amended_no_mut_accessor :
    staticCellOps = [ApiOp.cellNew, ApiOp.cellGet, ApiOp.cellSet, ApiOp.cellDefault] ∧
    (∀ op : ApiOp, returnType op ≠ RustType.mutRefItem) ∧
    returnType ApiOp.cellGet = RustType.refItem := by
  refine ⟨rfl, ?_, rfl⟩
  intro op
  cases op <;> simp [returnType]

/-- Claim C8: once the holder cell of a guarded type is written (the cell is
in the `Initialized` state), no sequence of further operations — cell reads,
proof reads, further writes or `init` calls — ever returns it to the
`Uninitialized` state: after any run, the cell still holds a value. -/
theorem C8_initialized_forever {B Item : Type} (inst : StaticInit B Item)
    (ops : List (Op B Item)) (w : World Item)
    (h : (w.getAt inst.holderId).isSome) :
    ((runOps inst ops w).getAt inst.holderId).isSome := by
  induction ops generalizing w with
  | nil => exact h
  | cons o os ih =>
    refine ih (Op.apply inst o w) ?_
    cases o with
    | setOp id v => exact World.getAt_setAt_isSome w id inst.holderId v h
    | getOp id => exact h
    | initCall v =>
      exact World.getAt_setAt_isSome w inst.holderId inst.holderId v h
    | proofGet p => exact h

/-- Witness for C8: a concrete initialized world survives a concrete run of
a read, an unrelated write, and a second write to the holder itself. -/
theorem C8_initialized_forever_witness :
    (World.getAt (fun _ => StaticCell.mk (some 3) : World Nat) 0).isSome ∧
    (World.getAt (runOps (StaticInit.mk 0 : StaticInit Unit Nat)
        [Op.getOp 0, Op.setOp 1 9, Op.setOp 0 4]
        (fun _ => StaticCell.mk (some 3))) 0).isSome :=
  ⟨rfl, C8_initialized_forever (StaticInit.mk 0 : StaticInit Unit Nat)
    [Op.getOp 0, Op.setOp 1 9, Op.setOp 0 4]
    (fun _ => StaticCell.mk (some 3)) rfl⟩

/-- Claim C9: `StaticCell::set` performs no once-only check — it is a total
operation applicable to an already-written cell — and after `set(v1)` then
`set(v2)` a read returns `v2`: the last value written wins and the first is
overwritten rather than rejected. -/
theorem C9_set_twice_last_wins {T : Type} (c : StaticCell T) (w : World T)
    (id : Nat) (v1 v2 : T) :
    (c.set v1).set v2 = StaticCell.mk (some v2) ∧
    ((w.setAt id v1).setAt id v2).getAt id = some v2 := by
  refine ⟨rfl, ?_⟩
  simp [World.getAt, World.setAt, StaticCell.get, StaticCell.set]

/-- Claim C10: the two read operations are pure — applying `StaticCell::get`
or `Inited::get` leaves the world of statics unchanged — `Inited::get`
returns the same result for any two proof values, and whenever it returns a
reference, that reference's address is the holder cell of the guarded type
(`B::HOLDER`), independent of the proof the call is made on. -/
theorem C10_get_pure_same_location {B Item : Type} (inst : StaticInit B Item)
    (p q : Inited B) (w : World Item) (id : Nat) :
    Op.apply inst (Op.getOp id) w = w ∧
    Op.apply inst (Op.proofGet p) w = w ∧
    Inited.get inst p w = Inited.get inst q w ∧
    (∀ r, Inited.get inst p w = some r → r.1 = inst.holderId) := by
  refine ⟨rfl, rfl, rfl, ?_⟩
  intro r hr
  unfold Inited.get at hr
  rcases hmap : w.getAt inst.holderId with _ | x
  · rw [hmap] at hr; simp at hr
  · rw [hmap] at hr
    simp at hr
    rw [← hr]

/-- Witness for C10 at a concrete proof, world and returned reference. -/
theorem C10_get_pure_same_location_witness :
    Inited.get (StaticInit.mk 0 : StaticInit Unit Nat) Inited.mk
      (fun _ => StaticCell.mk (some 3)) = some (0, 3) ∧
    (0, 3).1 = (StaticInit.mk 0 : StaticInit Unit Nat).holderId :=
  ⟨rfl, (C10_get_pure_same_location (StaticInit.mk 0 : StaticInit Unit Nat)
    Inited.mk Inited.mk (fun _ => StaticCell.mk (some 3)) 0).2.2.2 (0, 3) rfl⟩
